import Mathlib

/-!
Verification of the `pymeta` token model and micro-lexer
(`src/py/pymeta.py`, class `Tokens` and its `_coerce` machinery).

The embedding below translates the Python source directly:
* `Token` models the closed set of token classes (`Group`, `Ident`, `Punct`,
  `IntLiteral`, `FloatLiteral`, `StrLiteral`, `BytesLiteral`).  The opaque
  `span` position tag carried by every Python token is provenance-only
  (never interpreted by the code) and is omitted.
* Python `float` values are never computed with by this code (they are only
  stored and rendered), so they are modelled by `PyFloat`, a wrapper around
  the decimal text that produced them.
* Loops of the source are modelled with an explicit `fuel` parameter:
  a result of `none` means the computation did not finish within `fuel`
  steps; `some (.error e)` models a raised exception; `some (.ok v)` a
  normal return.  A function diverges exactly when it returns `none` for
  every fuel.
-/

namespace Pymeta

/-- The apostrophe character (written via its code point). -/
def squote : Char := Char.ofNat 39

/-- The backslash character (written via its code point). -/
def bslash : Char := Char.ofNat 92

/-- `Punct.ALONE` / `Punct.JOINT` spacing values. -/
inductive Spacing where
  | alone
  | joint
deriving DecidableEq, Repr

/-- `StrLiteral.CHR` / `StrLiteral.STR` / `StrLiteral.CSTR` sub-kinds. -/
inductive StrType where
  | chr
  | str
  | cstr
deriving DecidableEq, Repr

/-- `BytesLiteral.BYTE` / `BytesLiteral.BYTES` sub-kinds. -/
inductive BytesType where
  | byte
  | bytes
deriving DecidableEq, Repr

/-- Model of a Python `float` payload: the source never does arithmetic on
float literal values (it only stores the value produced by `float(text)`
and renders it back), so the payload is kept as the producing text. -/
structure PyFloat where
  text : String
deriving DecidableEq, Repr

/-- The closed set of token kinds of `pymeta.py` (span tags omitted,
see the module comment).  `group` holds the delimiter pair (`"()"`,
`"[]"`, `"{}"` or `""`) and the child token list. -/
inductive Token where
  | group (delimiter : String) (tokens : List Token)
  | ident (string : String)
  | punct (chars : String) (spacing : Spacing)
  | intLit (value : Int) (suffix : Option String)
  | floatLit (value : PyFloat) (suffix : Option String)
  | strLit (value : String) (type : StrType)
  | bytesLit (value : List Nat) (type : BytesType)

/-- The exception conditions raised by the source. -/
inductive Err where
  /-- `ValueError` from `pop_group`: closing delimiter does not match the
  innermost open group (carries both delimiter pairs). -/
  | delimiterMismatch (opening closing : String)
  /-- `IndexError`: `list.pop` / `deque[-1]` on an empty container. -/
  | indexError
  /-- `ValueError` from `parse_number`: segment matches neither number
  pattern. -/
  | invalidNumber (segment : String)
  /-- `ValueError` raised by Python `int(text)` on a malformed literal. -/
  | intConversion (text : String)
  /-- `ValueError` from `parse_str_literal`: quote never closed. -/
  | incompleteString
  /-- `ValueError` from `parse`: no token form matches (carries the
  lookbehind/lookahead window). -/
  | noTokenMatch (window : String)
  /-- `ValueError` from a literal/punct constructor check. -/
  | valueError (msg : String)
  /-- `TypeError` from `process_one`: unrecognized item. -/
  | typeMismatch (valueRepr typeName : String)
  /-- Python `assert` failure. -/
  | assertionError
deriving DecidableEq, Repr

/-- Python `str.isspace` on the characters this code can meet (ASCII). -/
def pyIsSpace (c : Char) : Bool :=
  c = ' ' || c = '\t' || c = '\n' || c = '\r' || c = Char.ofNat 11 || c = Char.ofNat 12

/-- `'0' <= c <= '9'` (`is_dec_digit`, and `\d` under `re.ASCII`). -/
def isDecDigit (c : Char) : Bool :=
  '0'.toNat ≤ c.toNat && c.toNat ≤ '9'.toNat

/-- `parse_number.is_digit`: decimal digits plus hex letters. -/
def isHexDigitPy (c : Char) : Bool :=
  isDecDigit c
    || ('a'.toNat ≤ c.toNat && c.toNat ≤ 'f'.toNat)
    || ('A'.toNat ≤ c.toNat && c.toNat ≤ 'F'.toNat)

/-- Modelled from the spec: `_pymeta.is_ident_start` is provided by the
native `_pymeta` module, which is not part of the Python sources; the spec
only calls it "an identifier-start character".  Modelled as an ASCII
letter or underscore (the Rust identifier-start convention the spec's
examples rely on: letters start identifiers, digits and punctuation do
not). -/
def isIdentStart (c : Char) : Bool :=
  ('a'.toNat ≤ c.toNat && c.toNat ≤ 'z'.toNat)
    || ('A'.toNat ≤ c.toNat && c.toNat ≤ 'Z'.toNat)
    || c = '_'

/-- Modelled from the spec: `_pymeta.is_ident_continue` (native, missing
from the sources); "an identifier-continue character" — an identifier-start
character or a decimal digit. -/
def isIdentContinue (c : Char) : Bool :=
  isIdentStart c || isDecDigit c

/-- `Punct.CHARS`, the fixed punctuation alphabet. -/
def punctChars : List Char :=
  ['=', '<', '>', '!', '~', '+', '-', '*', '/', '%', '^', '&', '|',
   '@', '.', ',', ';', ':', '#', '$', '?', squote]

/-- `Group.OPENING_TO_DELIMITER`. -/
def openingToDelim (c : Char) : Option String :=
  if c = '(' then some "()"
  else if c = '[' then some "[]"
  else if c = '{' then some "\x7b\x7d"
  else none

/-- `Group.CLOSING_TO_DELIMITER`. -/
def closingToDelim (c : Char) : Option String :=
  if c = ')' then some "()"
  else if c = ']' then some "[]"
  else if c = '}' then some "\x7b\x7d"
  else none

/-- `Group.DELIMITERS`. -/
def groupDelimiters : List String := ["()", "[]", "\x7b\x7d", ""]

/-- `IntLiteral.SUFFIXES`. -/
def intSuffixes : List String :=
  ["u8", "u16", "u32", "u64", "u128", "usize",
   "i8", "i16", "i32", "i64", "i128", "isize"]

/-- `FloatLiteral.SUFFIXES`. -/
def floatSuffixes : List String := ["f32", "f64"]

/-- A group being built during lexing: its delimiter pair and the tokens
appended to it so far (the mutable `Group` object on `_group_stack`). -/
structure GroupFrame where
  delimiter : String
  tokens : List Token

/-- The mutable state of one `Tokens._coerce` run: the `_results` output
list and the `_group_stack` (innermost group first). -/
structure LexState where
  results : List Token
  stack : List GroupFrame

/-- The empty coercion state. -/
def initState : LexState := ⟨[], []⟩

/-- `Tokens._coerce.emit`: append to the innermost open group if the
group stack is non-empty, else to the result list. -/
def emit (t : Token) (st : LexState) : LexState :=
  match st.stack with
  | [] => { st with results := st.results ++ [t] }
  | top :: rest => { st with stack := { top with tokens := top.tokens ++ [t] } :: rest }

/-- `Tokens._coerce.push_group`: look the opening character up, `assert`
it is known, push a fresh empty group. -/
def pushGroup (c : Char) (st : LexState) : Except Err LexState :=
  match openingToDelim c with
  | none => .error .assertionError
  | some d => .ok { st with stack := ⟨d, []⟩ :: st.stack }

/-- `Tokens._coerce.pop_group`: look the closing character up, `assert`
it is known, pop the innermost group (an empty stack raises `IndexError`),
check the delimiter matches, and emit the popped group one level out. -/
def popGroup (c : Char) (st : LexState) : Except Err LexState :=
  match closingToDelim c with
  | none => .error .assertionError
  | some d =>
    match st.stack with
    | [] => .error .indexError
    | top :: rest =>
      if top.delimiter ≠ d then
        .error (.delimiterMismatch top.delimiter d)
      else
        .ok (emit (.group top.delimiter top.tokens) { st with stack := rest })

/-- The `Punct.__init__` constructor: every character must come from the
fixed alphabet (the spacing argument is already one of the two enum values
in the model, so the membership check the source does on it is vacuous). -/
def mkPunct (chars : String) (spacing : Spacing) : Except Err Token :=
  if chars.data.all (fun c => punctChars.contains c) then
    .ok (.punct chars spacing)
  else
    .error (.valueError "Invalid punctuation char")

/-- The `Ident.__init__` constructor: stores the string with no
validation. -/
def mkIdent (string : String) : Token := .ident string

/-- The `IntLiteral.__init__` constructor: `int(value)` is the identity
on an `int`, the suffix (when given) must come from
`IntLiteral.SUFFIXES`. -/
def mkIntLiteral (value : Int) (suffix : Option String) : Except Err Token :=
  match suffix with
  | none => .ok (.intLit value none)
  | some sfx =>
    if intSuffixes.contains sfx then .ok (.intLit value (some sfx))
    else .error (.valueError "invalid IntLiteral suffix")

/-- The `FloatLiteral.__init__` constructor. -/
def mkFloatLiteral (value : PyFloat) (suffix : Option String) : Except Err Token :=
  match suffix with
  | none => .ok (.floatLit value none)
  | some sfx =>
    if floatSuffixes.contains sfx then .ok (.floatLit value (some sfx))
    else .error (.valueError "invalid FloatLiteral suffix")

/-- The `StrLiteral.__init__` constructor: the `Chr` sub-kind requires
content of length exactly 1 (the sub-kind tag itself is an enum value in
the model, so the source's membership check on it is vacuous). -/
def mkStrLiteral (value : String) (type : StrType) : Except Err Token :=
  if type = .chr && value.length ≠ 1 then
    .error (.valueError "not a single character")
  else
    .ok (.strLit value type)

/-- The `BytesLiteral.__init__` constructor: the `Byte` sub-kind requires
exactly one byte. -/
def mkBytesLiteral (value : List Nat) (type : BytesType) : Except Err Token :=
  if type = .byte && value.length ≠ 1 then
    .error (.valueError "not a single byte")
  else
    .ok (.bytesLit value type)

/-- Python `str.encode()`: the UTF-8 bytes of the string. -/
def strEncode (s : String) : List Nat :=
  s.toUTF8.toList.map (fun b => b.toNat)

/-- Helper for Python `int(text)`: decimal digits with single
underscores strictly between digits (the shapes `[\d_]+` can hand over).
Returns `none` where `int` raises `ValueError`. -/
def pyIntDigits : List Char → Nat → Option Nat
  | [], acc => some acc
  | '_' :: c :: rest, acc =>
    if isDecDigit c then pyIntDigits rest (acc * 10 + (c.toNat - '0'.toNat))
    else none
  | c :: rest, acc =>
    if isDecDigit c then pyIntDigits rest (acc * 10 + (c.toNat - '0'.toNat))
    else none

/-- Python `int(text)` on the sign-less segments the integer pattern can
produce: all-decimal strings with well-placed underscores convert; any
radix-prefixed or otherwise lettered text raises `ValueError` (`none`). -/
def pyInt (text : List Char) : Option Int :=
  match text with
  | [] => none
  | '_' :: _ => none
  | c :: rest =>
    if isDecDigit c then
      (pyIntDigits rest (c.toNat - '0'.toNat)).map (fun n => (n : Int))
    else none

/-- `\d_` character class of the integer pattern (ASCII). -/
def isDigitOrUnderscore (c : Char) : Bool := isDecDigit c || c = '_'

/-- `[\da-fA-F_]` character class of the hex branch. -/
def isHexOrUnderscore (c : Char) : Bool := isHexDigitPy c || c = '_'

/-- `(?P<suffix>[ui]\d+)` of the integer pattern. -/
def uiSuffixMatch (l : List Char) : Bool :=
  match l with
  | c :: rest => (c = 'u' || c = 'i') && !rest.isEmpty && rest.all isDecDigit
  | [] => false

/-- `(?P<suffix>f\d+)` of the float pattern. -/
def fSuffixMatch (l : List Char) : Bool :=
  match l with
  | c :: rest => c = 'f' && !rest.isEmpty && rest.all isDecDigit
  | [] => false

/-- Shared shape of both number patterns: a greedy non-empty body drawn
from `isBody` followed by an optional suffix recognized by `suffixOk`
(the two character classes are disjoint on their first characters, so the
regex split point is unique).  Returns `(body, suffix)` on a full match. -/
def splitBodySuffix (isBody : Char → Bool) (suffixOk : List Char → Bool)
    (l : List Char) : Option (List Char × Option (List Char)) :=
  let body := l.takeWhile isBody
  let rest := l.drop body.length
  if body.isEmpty then none
  else if rest.isEmpty then some (body, none)
  else if suffixOk rest then some (body, some rest)
  else none

/-- `re.fullmatch` of the integer pattern
`(?P<num>(?:0[bo])?[\d_]+|0x[\da-fA-F_]+)(?P<suffix>[ui]\d+)?`
(ASCII): first alternative with the greedy optional radix marker tried
first, then without it, then the hex alternative.  Returns the `num` and
`suffix` captures. -/
def intFullmatch (l : List Char) : Option (List Char × Option (List Char)) :=
  let withRadix : Option (List Char × Option (List Char)) :=
    match l with
    | '0' :: m :: rest =>
      if m = 'b' || m = 'o' then
        (splitBodySuffix isDigitOrUnderscore uiSuffixMatch rest).map
          (fun p => ('0' :: m :: p.1, p.2))
      else none
    | _ => none
  let plain := splitBodySuffix isDigitOrUnderscore uiSuffixMatch l
  let hex : Option (List Char × Option (List Char)) :=
    match l with
    | '0' :: 'x' :: rest =>
      (splitBodySuffix isHexOrUnderscore uiSuffixMatch rest).map
        (fun p => ('0' :: 'x' :: p.1, p.2))
    | _ => none
  (withRadix.orElse (fun _ => plain)).orElse (fun _ => hex)

/-- `re.fullmatch` of the float pattern
`(?P<num>\d+\.\d*(?:[eE][+-]?\d+)?)(?P<suffix>f\d+)?` (ASCII).
Returns the `num` and `suffix` captures. -/
def floatFullmatch (l : List Char) : Option (List Char × Option (List Char)) :=
  let d1 := l.takeWhile isDecDigit
  if d1.isEmpty then none
  else
    match l.drop d1.length with
    | '.' :: rest2 =>
      let d2 := rest2.takeWhile isDecDigit
      let rest3 := rest2.drop d2.length
      -- the exponent group, when its head letter is present, must complete
      -- (no other alternative can consume an `e`/`E`)
      let finish (numChars restAfter : List Char) :
          Option (List Char × Option (List Char)) :=
        if restAfter.isEmpty then some (numChars, none)
        else if fSuffixMatch restAfter then some (numChars, some restAfter)
        else none
      match rest3 with
      | e :: rest4 =>
        if e = 'e' || e = 'E' then
          let (sgn, ds) :=
            match rest4 with
            | s :: rest5 => if s = '+' || s = '-' then ([s], rest5) else (([] : List Char), rest4)
            | [] => (([] : List Char), ([] : List Char))
          let dexp := ds.takeWhile isDecDigit
          if dexp.isEmpty then none
          else
            finish (d1 ++ '.' :: d2 ++ e :: sgn ++ dexp) (ds.drop dexp.length)
        else
          finish (d1 ++ '.' :: d2) rest3
      | [] => some (d1 ++ '.' :: d2, none)
    | _ => none

/-- The Python slice `s[a:b]` on a character list. -/
def slice (s : List Char) (a b : Nat) : List Char :=
  (s.drop a).take (b - a)

/-- The character class of the first `if` of `parse_number`'s scan loop:
`is_digit(char) or char in ('_','b','o','x','e','E','u','i','f')`. -/
def numContinueChar (c : Char) : Bool :=
  isHexDigitPy c || ['_', 'b', 'o', 'x', 'e', 'E', 'u', 'i', 'f'].contains c

/-- The `.`-lookahead of `parse_number`:
`(index+1) < len(string) and (string[index+1] == '.' or is_ident_start(string[index+1]))`. -/
def dotLookaheadBreak (s : List Char) (i : Nat) : Bool :=
  match s.get? (i + 1) with
  | some c2 => c2 = '.' || isIdentStart c2
  | none => false

/-- The `while index < len(string)` scan loop of `parse_number`,
translated branch for branch.  Note that, as in the source, neither
`continue` branch advances `index`: on a digit-class character the loop
re-examines the same position forever, so the function returns `none`
(fuel exhausted) for every fuel.  A `some i` result models the loop
ending (by `break` or by reaching end of input) with `index = i`. -/
def numLoop (s : List Char) : Nat → Nat → Bool → Option Nat
  | 0, _, _ => none
  | fuel + 1, i, foundDot =>
    match s.get? i with
    | none => some i
    | some c =>
      if numContinueChar c then
        numLoop s fuel i foundDot
      else if c = '.' then
        if foundDot then some i
        else if dotLookaheadBreak s i then some i
        else numLoop s fuel i true
      else some i

/-- The tail of `parse_number` after the scan loop: slice the segment,
try the integer pattern (converting the `num` capture with `int` and
validating the suffix through the `IntLiteral` constructor), then the
float pattern, else raise `ValueError`. -/
def mkNumberToken (segment : List Char) : Except Err Token :=
  match intFullmatch segment with
  | some (num, sfx) =>
    match pyInt num with
    | some v => mkIntLiteral v (sfx.map String.mk)
    | none => .error (.intConversion (String.mk num))
  | none =>
    match floatFullmatch segment with
    | some (num, sfx) => mkFloatLiteral ⟨String.mk num⟩ (sfx.map String.mk)
    | none => .error (.invalidNumber (String.mk segment))

/-- The prefix/quote recognition at the head of `parse_str_literal`:
`none` models `return False` (no string literal starts here); otherwise
the optional `b`/`c` marker, the quote character and the index of the
first content character. -/
def strLitStart (s : List Char) (i : Nat) : Option (Option Char × Char × Nat) :=
  match s.get? i with
  | none => none
  | some c0 =>
    if c0 = 'b' || c0 = 'c' then
      match s.get? (i + 1) with
      | some q =>
        if q = '"' || q = squote then some (some c0, q, i + 2) else none
      | none => none
    else
      if c0 = '"' || c0 = squote then some (none, c0, i + 1)
      else none

/-- The content-scanning loop of `parse_str_literal`: stops past the
matching unescaped quote; otherwise matches the source's
`match tuple(string[index:index+3])` cases in order (`\"`→`"`,
`\'`→`'`, `\\"`→literal `\"`, `\\'`→literal `\'`, any other character
kept as-is).  Reaching end of input without the closing quote models the
`while`-`else` branch raising "Incomplete string literal". -/
def strLoop (s : List Char) (quote : Char) :
    Nat → Nat → Option (Except Err (List Char × Nat))
  | 0, _ => none
  | fuel + 1, i =>
    match s.get? i with
    | none => some (.error .incompleteString)
    | some c0 =>
      if c0 = quote then some (.ok ([], i + 1))
      else
        let c1 := s.get? (i + 1)
        let c2 := s.get? (i + 2)
        if c0 = bslash && c1 = some '"' then
          (strLoop s quote fuel (i + 2)).map (fun r => r.map (fun p => ('"' :: p.1, p.2)))
        else if c0 = bslash && c1 = some squote then
          (strLoop s quote fuel (i + 2)).map (fun r => r.map (fun p => (squote :: p.1, p.2)))
        else if c0 = bslash && c1 = some bslash && c2 = some '"' then
          (strLoop s quote fuel (i + 3)).map
            (fun r => r.map (fun p => (bslash :: '"' :: p.1, p.2)))
        else if c0 = bslash && c1 = some bslash && c2 = some squote then
          (strLoop s quote fuel (i + 3)).map
            (fun r => r.map (fun p => (bslash :: squote :: p.1, p.2)))
        else
          (strLoop s quote fuel (i + 1)).map (fun r => r.map (fun p => (c0 :: p.1, p.2)))

/-- The tail of `parse_str_literal`: build the literal token from the
decoded content, the quote kind (`'` means the char/byte sub-kinds) and
the optional `b`/`c` marker, through the literal constructors. -/
def mkStrLitToken (pfx : Option Char) (quote : Char) (content : List Char) :
    Except Err Token :=
  match pfx with
  | none =>
    mkStrLiteral (String.mk content) (if quote = squote then .chr else .str)
  | some p =>
    if p = 'b' then
      mkBytesLiteral (strEncode (String.mk content))
        (if quote = squote then .byte else .bytes)
    else if p = 'c' then
      mkStrLiteral (String.mk content) .cstr
    else .error .assertionError

/-- The error window of `parse`'s final `raise`:
`string[max(index - 4, 0):index + 5]` (natural-number subtraction clamps
at 0 exactly like `max(index - 4, 0)`). -/
def errWindow (s : List Char) (i : Nat) : String :=
  String.mk (slice s (i - 4) (i + 5))

/-- The `parse_punct` sub-scanner given its start character `c` at
position `i`: consumes the maximal run `string[start:index]` of
punctuation-alphabet characters (the run is `c` followed by the matching
characters after it, so `index = i + 1 + rest.length` and
`string[index - 1]` is `rest.getLastD c`), computes the lifetime
spacing — `JOINT` when the run ends in an apostrophe immediately
followed by an identifier-start character, `ALONE` otherwise — and
builds the token through the `Punct` constructor.  Returns the
constructor outcome and the new scan position. -/
def punctTok (s : List Char) (i : Nat) (c : Char) : Except Err Token × Nat :=
  let rest := (s.drop (i + 1)).takeWhile (fun d => punctChars.contains d)
  let j := i + 1 + rest.length
  let spacing :=
    if rest.getLastD c = squote
        && (match s.get? j with
            | some nc => isIdentStart nc
            | none => false) then
      Spacing.joint
    else Spacing.alone
  (mkPunct (String.mk (c :: rest)) spacing, j)

/-- The identifier branch of `parse` given its start character `c` at
position `i`: consumes the maximal run of identifier-continue characters
after it (`string[start:index]`) and builds the `Ident`.  Returns the
token and the new scan position. -/
def identTok (s : List Char) (i : Nat) (c : Char) : Token × Nat :=
  let rest := (s.drop (i + 1)).takeWhile isIdentContinue
  (mkIdent (String.mk (c :: rest)), i + 1 + rest.length)

/-- `Tokens._coerce.parse`: the main scan loop, one branch per case in
the source's priority order (whitespace, opening delimiter, closing
delimiter, `parse_punct`, identifier, `parse_number`,
`parse_str_literal`, syntax error); `s.get? i = none` is the loop
condition `index < len(string)` failing.  `fuel` decreases at every
iteration; inner loops run on the remaining fuel.  `none` means the scan
did not finish within `fuel` steps. -/
def parseGo (s : List Char) : Nat → Nat → LexState → Option (Except Err LexState)
  | 0, _, _ => none
  | fuel + 1, i, st =>
    match s.get? i with
    | none => some (.ok st)
    | some c =>
      if pyIsSpace c then
        parseGo s fuel (i + 1) st
      else if openingToDelim c ≠ none then
        match pushGroup c st with
        | .error e => some (.error e)
        | .ok st' => parseGo s fuel (i + 1) st'
      else if closingToDelim c ≠ none then
        match popGroup c st with
        | .error e => some (.error e)
        | .ok st' => parseGo s fuel (i + 1) st'
      else if punctChars.contains c then
        match punctTok s i c with
        | (.error e, _) => some (.error e)
        | (.ok t, j) => parseGo s fuel j (emit t st)
      else if isIdentStart c then
        match identTok s i c with
        | (t, j) => parseGo s fuel j (emit t st)
      else if isDecDigit c then
        -- parse_number: scan loop from index + 1, then match the segment
        match numLoop s fuel (i + 1) false with
        | none => none
        | some j =>
          match mkNumberToken (slice s i j) with
          | .error e => some (.error e)
          | .ok t => parseGo s fuel j (emit t st)
      else
        match strLitStart s i with
        | some (pfx, quote, contentStart) =>
          match strLoop s quote fuel contentStart with
          | none => none
          | some (.error e) => some (.error e)
          | some (.ok (content, j)) =>
            match mkStrLitToken pfx quote content with
            | .error e => some (.error e)
            | .ok t => parseGo s fuel j (emit t st)
        | none => some (.error (.noTokenMatch (errWindow s i)))

/-- Lexing one text fragment from a fresh coercion state, returning the
`_results` list (what `Tokens("…")` stores). -/
def lexTokens (text : String) (fuel : Nat) : Option (Except Err (List Token)) :=
  (parseGo text.data fuel 0 initState).map (fun r => r.map (fun st => st.results))

/-- Two lowercase hex digits (for `\xhh` escapes of `repr`). -/
def hex2 (n : Nat) : String :=
  let dig := fun (k : Nat) => "0123456789abcdef".data.getD k '0'
  String.mk [dig (n / 16 % 16), dig (n % 16)]

/-- One character of CPython `repr(str)` output, given the enclosing
quote: backslash and the quote are escaped, `\n`/`\r`/`\t` use their
two-character escapes, other printable ASCII is kept, other bytes below
256 use `\xhh` (wider non-printables are approximated by themselves;
no claim evaluates them). -/
def pyReprChar (quote : Char) (c : Char) : String :=
  if c = bslash then String.mk [bslash, bslash]
  else if c = quote then String.mk [bslash, quote]
  else if c = '\n' then String.mk [bslash, 'n']
  else if c = '\r' then String.mk [bslash, 'r']
  else if c = '\t' then String.mk [bslash, 't']
  else if 32 ≤ c.toNat && c.toNat ≤ 126 then String.singleton c
  else if c.toNat < 256 then String.mk [bslash, 'x'] ++ hex2 c.toNat
  else String.singleton c

/-- CPython `repr` of a string: single-quoted, except double-quoted when
the content has a single quote and no double quote. -/
def pyReprStr (s : String) : String :=
  let q := if s.data.contains squote && !s.data.contains '"' then '"' else squote
  String.singleton q ++ String.join (s.data.map (pyReprChar q)) ++ String.singleton q

/-- One byte of CPython `repr(bytes)` output. -/
def pyReprByte (quote : Char) (b : Nat) : String :=
  if b = bslash.toNat then String.mk [bslash, bslash]
  else if b = quote.toNat then String.mk [bslash, quote]
  else if b = 10 then String.mk [bslash, 'n']
  else if b = 13 then String.mk [bslash, 'r']
  else if b = 9 then String.mk [bslash, 't']
  else if 32 ≤ b && b ≤ 126 then String.singleton (Char.ofNat b)
  else String.mk [bslash, 'x'] ++ hex2 b

/-- CPython `repr` of a bytes value: `b'…'` with the same quote choice as
for strings. -/
def pyReprBytes (b : List Nat) : String :=
  let q := if b.contains squote.toNat && !b.contains '"'.toNat then '"' else squote
  "b" ++ String.singleton q ++ String.join (b.map (pyReprByte q)) ++ String.singleton q

mutual

/-- `Token.__str__`, case by case: `Group.__str__` shows
`"{delim[0]} {tokens} {delim[1]}"` with `∅∅` for the empty delimiter;
`Ident`/`Punct` show their text; the literals show the value (with
suffix); `StrLiteral.__str__` and `BytesLiteral.__str__` are
`repr(self.value)` (the source marks them `TODO: rust format`). -/
def renderToken : Token → String
  | .group d ts =>
    let delim := if d = "" then "∅∅" else d
    match delim.data with
    | a :: b :: _ =>
      String.singleton a ++ " " ++ renderTokenList ts ++ " " ++ String.singleton b
    | _ => ""
  | .ident s => s
  | .punct chars _ => chars
  | .intLit v sfx => toString v ++ sfx.getD ""
  | .floatLit v sfx => v.text ++ sfx.getD ""
  | .strLit v _ => pyReprStr v
  | .bytesLit v _ => pyReprBytes v

/-- `Tokens.__str__`: `" ".join(map(str, self._tokens))`. -/
def renderTokenList : List Token → String
  | [] => ""
  | [t] => renderToken t
  | t :: ts => renderToken t ++ " " ++ renderTokenList ts

end

/-- One call on the opaque `_pymeta.TokenStream` sink (span arguments
omitted with the spans). -/
inductive SinkCall where
  | appendGroup (delimiter : String) (inner : List SinkCall)
  | appendIdent (string : String)
  | appendPunct (char : Char) (spacing : Spacing)
  | appendIntLiteral (value : Int) (suffix : Option String)
  | appendFloatLiteral (value : PyFloat) (suffix : Option String)
  | appendStrLiteral (type : StrType) (value : String)
  | appendBytesLiteral (type : BytesType) (value : List Nat)

/-- The loop of `Punct._append_to_tokenstream` on a non-empty character
list: every character of `chars[:-1]` is appended with `JOINT` spacing,
the final character with the token's stored spacing. -/
def punctFanOut (sp : Spacing) : List Char → List SinkCall
  | [] => []
  | [c] => [.appendPunct c sp]
  | c :: rest => .appendPunct c .joint :: punctFanOut sp rest

mutual

/-- `Token._append_to_tokenstream`, case by case; a `Group` first builds
its children's stream (`Tokens._to_tokenstream`) and hands it to one
`append_group` call; an empty `Punct` raises `ValueError`. -/
def tokenSinkCalls : Token → Except Err (List SinkCall)
  | .group d ts =>
    match tokensSinkCalls ts with
    | .error e => .error e
    | .ok inner => .ok [.appendGroup d inner]
  | .ident s => .ok [.appendIdent s]
  | .punct chars sp =>
    if chars.data.isEmpty then .error (.valueError "Punct token is empty")
    else .ok (punctFanOut sp chars.data)
  | .intLit v sfx => .ok [.appendIntLiteral v sfx]
  | .floatLit v sfx => .ok [.appendFloatLiteral v sfx]
  | .strLit v ty => .ok [.appendStrLiteral ty v]
  | .bytesLit v ty => .ok [.appendBytesLiteral ty v]

/-- `Tokens._to_tokenstream`: append every token's calls in order. -/
def tokensSinkCalls : List Token → Except Err (List SinkCall)
  | [] => .ok []
  | t :: ts =>
    match tokenSinkCalls t with
    | .error e => .error e
    | .ok a =>
      match tokensSinkCalls ts with
      | .error e => .error e
      | .ok b => .ok (a ++ b)

end

mutual

/-- One item of the `CoerceToTokens` input universe of `process_one`
(Python's dynamic typing made explicit; `other` stands for any value of
an unrecognized class, carrying its `repr` and type name). -/
inductive Item where
  | tok (t : Token)
  | intVal (n : Int)
  | floatVal (x : PyFloat)
  | bytesVal (b : List Nat)
  | tupleVal (items : List Item)
  | listVal (items : List Item)
  | template (parts : List TPart)
  | strVal (s : String)
  | other (valueRepr typeName : String)

/-- One part of a `string.templatelib.Template`: literal text or an
interpolated value. -/
inductive TPart where
  | text (s : String)
  | interp (it : Item)

end

/-- `Group.__init__`: the delimiter must come from `Group.DELIMITERS`. -/
def mkGroup (delimiter : String) (tokens : List Token) : Except Err Token :=
  if groupDelimiters.contains delimiter then .ok (.group delimiter tokens)
  else .error (.valueError "invalid group delimiter")

mutual

/-- `Tokens._coerce.process_one`, case by case in the source's `match`
order: a `Token` is emitted as-is; an `int`/`float` becomes a suffixless
literal; a byte-sequence becomes a `BytesLiteral` of the `Bytes`
sub-kind; a tuple/list becomes a `()`/`[]` `Group` over `Tokens(items=…)`
(a recursive coercion with a fresh state); a template feeds its text
parts to `parse` and recurses on interpolations; a string is fed to
`parse`; anything else raises `TypeError`. -/
def processOne : Nat → Item → LexState → Option (Except Err LexState)
  | 0, _, _ => none
  | fuel + 1, item, st =>
    match item with
    | .tok t => some (.ok (emit t st))
    | .intVal n => some (.ok (emit (.intLit n none) st))
    | .floatVal x => some (.ok (emit (.floatLit x none) st))
    | .bytesVal b => some (.ok (emit (.bytesLit b .bytes) st))
    | .tupleVal its =>
      match coerceItems fuel its with
      | none => none
      | some (.error e) => some (.error e)
      | some (.ok toks) =>
        match mkGroup "()" toks with
        | .error e => some (.error e)
        | .ok t => some (.ok (emit t st))
    | .listVal its =>
      match coerceItems fuel its with
      | none => none
      | some (.error e) => some (.error e)
      | some (.ok toks) =>
        match mkGroup "[]" toks with
        | .error e => some (.error e)
        | .ok t => some (.ok (emit t st))
    | .template parts => processParts fuel parts st
    | .strVal s => parseGo s.data fuel 0 st
    | .other r ty => some (.error (.typeMismatch r ty))

/-- The `for part in template` loop of `process_one`. -/
def processParts : Nat → List TPart → LexState → Option (Except Err LexState)
  | 0, _, _ => none
  | _ + 1, [], st => some (.ok st)
  | fuel + 1, p :: rest, st =>
    match
      (match p with
       | .text s => parseGo s.data fuel 0 st
       | .interp it => processOne fuel it st) with
    | none => none
    | some (.error e) => some (.error e)
    | some (.ok st') => processParts fuel rest st'

/-- The `for item in items` loop of `Tokens._coerce`. -/
def processMany : Nat → List Item → LexState → Option (Except Err LexState)
  | 0, _, _ => none
  | _ + 1, [], st => some (.ok st)
  | fuel + 1, it :: rest, st =>
    match processOne fuel it st with
    | none => none
    | some (.error e) => some (.error e)
    | some (.ok st') => processMany fuel rest st'

/-- `Tokens._coerce`: run the items from a fresh state and return the
`_results` list (unclosed groups left on the stack are dropped, as in the
source). -/
def coerceItems : Nat → List Item → Option (Except Err (List Token))
  | 0, _ => none
  | fuel + 1, items =>
    (processMany fuel items initState).map (fun r => r.map (fun st => st.results))

end

/-- Is the token a `Group`? (`isinstance(tokens[-1], Group)`). -/
def isGroupTok : Token → Bool
  | .group _ _ => true
  | _ => false

/-- The free function `rust(*args)`: coerce the arguments into a fresh
token list, then append them to the list on top of the process-wide
`Tokens._CTX_STACK` (modelled with its top — the deque's right end — at
the head), returning the last coerced token when it is a `Group`.
`Tokens._current_ctx` on an empty stack raises `IndexError` before
anything is appended. -/
def rustCall (fuel : Nat) (ctxStack : List (List Token)) (args : List Item) :
    Option (Except Err (List (List Token) × Option Token)) :=
  match coerceItems fuel args with
  | none => none
  | some (.error e) => some (.error e)
  | some (.ok toks) =>
    match ctxStack with
    | [] => some (.error .indexError)
    | top :: rest =>
      some (.ok ((top ++ toks) :: rest,
        match toks.getLast? with
        | some t => if isGroupTok t then some t else none
        | none => none))

/-- The Identifier invariant of the spec's data-model table: non-empty,
first character an identifier-start character, remaining characters
identifier-continue characters. -/
def goodIdentStr (s : String) : Bool :=
  match s.data with
  | [] => false
  | c :: rest => isIdentStart c && rest.all isIdentContinue

mutual

/-- Does every `Ident` inside the token (descending through `Group`
children) satisfy the Identifier invariant? -/
def tokenIdentsOk : Token → Bool
  | .group _ ts => tokensIdentsOk ts
  | .ident s => goodIdentStr s
  | .punct _ _ => true
  | .intLit _ _ => true
  | .floatLit _ _ => true
  | .strLit _ _ => true
  | .bytesLit _ _ => true

/-- `tokenIdentsOk` over a token list. -/
def tokensIdentsOk : List Token → Bool
  | [] => true
  | t :: ts => tokenIdentsOk t && tokensIdentsOk ts

end

/-- `tokensIdentsOk` over every open group of a stack. -/
def framesIdentsOk : List GroupFrame → Bool
  | [] => true
  | f :: fs => tokensIdentsOk f.tokens && framesIdentsOk fs

/-- The lexing-state invariant behind the Identifier claim: every `Ident`
already emitted (into the results or into any open group) is
well-formed. -/
def stateIdentsOk (st : LexState) : Bool :=
  tokensIdentsOk st.results && framesIdentsOk st.stack

/-- Did the computation return normally? -/
def resultIsOk {α : Type} : Option (Except Err α) → Bool
  | some (.ok _) => true
  | _ => false

/-- Did the computation raise the delimiter-mismatch condition? -/
def resultIsDelimiterMismatch {α : Type} : Option (Except Err α) → Bool
  | some (.error (.delimiterMismatch _ _)) => true
  | _ => false

/-! ## Helper lemmas -/

/-- If the scan loop of `parse_number` stands on a digit-class character,
it never advances: the loop diverges (returns `none` for every fuel). -/
theorem numLoop_stuck (s : List Char) (i : Nat) (c : Char)
    (h : s.get? i = some c) (hc : numContinueChar c = true) :
    ∀ fuel foundDot, numLoop s fuel i foundDot = none := by
  intro fuel
  induction fuel with
  | zero => intro fd; rfl
  | succ n ih =>
    intro fd
    simp only [numLoop, h, hc, if_true]
    exact ih fd

theorem tokensIdentsOk_append (a b : List Token) :
    tokensIdentsOk (a ++ b) = (tokensIdentsOk a && tokensIdentsOk b) := by
  induction a with
  | nil => simp [tokensIdentsOk]
  | cons t ts ih => simp [tokensIdentsOk, ih, Bool.and_assoc]

theorem emit_idents_ok {t : Token} {st : LexState}
    (ht : tokenIdentsOk t = true) (hst : stateIdentsOk st = true) :
    stateIdentsOk (emit t st) = true := by
  unfold stateIdentsOk at hst ⊢
  unfold emit
  cases hstack : st.stack with
  | nil =>
    rw [hstack] at hst
    simp [framesIdentsOk] at hst ⊢
    simp [tokensIdentsOk_append, hst, tokensIdentsOk, ht]
  | cons top rest =>
    rw [hstack] at hst
    simp [framesIdentsOk] at hst ⊢
    obtain ⟨h1, h2, h3⟩ := hst
    exact ⟨h1, by simp [tokensIdentsOk_append, h2, tokensIdentsOk, ht], h3⟩

theorem pushGroup_idents_ok {c : Char} {st st' : LexState}
    (hst : stateIdentsOk st = true) (h : pushGroup c st = .ok st') :
    stateIdentsOk st' = true := by
  unfold pushGroup at h
  cases hd : openingToDelim c with
  | none => rw [hd] at h; cases h
  | some d =>
    rw [hd] at h
    cases h
    unfold stateIdentsOk at hst ⊢
    simp [framesIdentsOk, tokensIdentsOk] at hst ⊢
    exact hst

theorem popGroup_idents_ok {c : Char} {st st' : LexState}
    (hst : stateIdentsOk st = true) (h : popGroup c st = .ok st') :
    stateIdentsOk st' = true := by
  unfold popGroup at h
  split at h
  · cases h
  · rename_i d hd
    split at h
    · cases h
    · rename_i top rest hstack
      split at h
      · cases h
      · cases h
        unfold stateIdentsOk at hst
        rw [hstack] at hst
        simp [framesIdentsOk] at hst
        obtain ⟨h1, h2, h3⟩ := hst
        exact emit_idents_ok (by simpa [tokenIdentsOk] using h2)
          (by simp [stateIdentsOk, h1, h3])

theorem mkPunct_idents_ok {chars : String} {sp : Spacing} {t : Token}
    (h : mkPunct chars sp = .ok t) : tokenIdentsOk t = true := by
  unfold mkPunct at h
  split at h
  · cases h; rfl
  · cases h

theorem mkIntLiteral_idents_ok {v : Int} {sfx : Option String} {t : Token}
    (h : mkIntLiteral v sfx = .ok t) : tokenIdentsOk t = true := by
  unfold mkIntLiteral at h
  split at h
  · cases h; rfl
  · split at h
    · cases h; rfl
    · cases h

theorem mkFloatLiteral_idents_ok {v : PyFloat} {sfx : Option String} {t : Token}
    (h : mkFloatLiteral v sfx = .ok t) : tokenIdentsOk t = true := by
  unfold mkFloatLiteral at h
  split at h
  · cases h; rfl
  · split at h
    · cases h; rfl
    · cases h

theorem mkNumberToken_idents_ok {seg : List Char} {t : Token}
    (h : mkNumberToken seg = .ok t) : tokenIdentsOk t = true := by
  unfold mkNumberToken at h
  split at h
  · split at h
    · exact mkIntLiteral_idents_ok h
    · cases h
  · split at h
    · exact mkFloatLiteral_idents_ok h
    · cases h

theorem mkStrLiteral_idents_ok {v : String} {ty : StrType} {t : Token}
    (h : mkStrLiteral v ty = .ok t) : tokenIdentsOk t = true := by
  unfold mkStrLiteral at h
  split at h
  · cases h
  · cases h; rfl

theorem mkBytesLiteral_idents_ok {v : List Nat} {ty : BytesType} {t : Token}
    (h : mkBytesLiteral v ty = .ok t) : tokenIdentsOk t = true := by
  unfold mkBytesLiteral at h
  split at h
  · cases h
  · cases h; rfl

theorem mkStrLitToken_idents_ok {pfx : Option Char} {quote : Char}
    {content : List Char} {t : Token}
    (h : mkStrLitToken pfx quote content = .ok t) : tokenIdentsOk t = true := by
  unfold mkStrLitToken at h
  split at h
  · exact mkStrLiteral_idents_ok h
  · split at h
    · exact mkBytesLiteral_idents_ok h
    · split at h
      · exact mkStrLiteral_idents_ok h
      · cases h

theorem punctTok_idents_ok {s : List Char} {i : Nat} {c : Char} {t : Token}
    (h : (punctTok s i c).1 = .ok t) : tokenIdentsOk t = true :=
  mkPunct_idents_ok h

theorem identTok_idents_ok (s : List Char) (i : Nat) (c : Char)
    (hc : isIdentStart c = true) :
    tokenIdentsOk (identTok s i c).1 = true := by
  show goodIdentStr (String.mk (c :: (s.drop (i + 1)).takeWhile isIdentContinue)) = true
  unfold goodIdentStr
  simp only [hc, Bool.true_and]
  rw [List.all_eq_true]
  intro x hx
  exact List.mem_takeWhile_imp hx

/-- The main-loop invariant: a normally returning scan only adds
well-formed `Ident` tokens to the state. -/
theorem parseGo_preserves (s : List Char) :
    ∀ (fuel i : Nat) (st st' : LexState), stateIdentsOk st = true →
      parseGo s fuel i st = some (.ok st') → stateIdentsOk st' = true := by
  intro fuel
  induction fuel with
  | zero =>
    intro i st st' _ h
    cases h
  | succ f ih =>
    intro i st st' hst h
    rw [parseGo] at h
    split at h
    · -- end of input: the state is returned unchanged
      cases h
      exact hst
    · -- a character at position i
      rename_i c hgetc
      split at h
      · -- whitespace
        exact ih _ _ _ hst h
      · split at h
        · -- opening delimiter
          split at h
          · cases h
          · rename_i st2 hpush
            exact ih _ _ _ (pushGroup_idents_ok hst hpush) h
        · split at h
          · -- closing delimiter
            split at h
            · cases h
            · rename_i st2 hpop
              exact ih _ _ _ (popGroup_idents_ok hst hpop) h
          · split at h
            · -- punctuation run
              split at h
              · cases h
              · rename_i t j hpunct
                have ht : (punctTok s i c).1 = .ok t := by rw [hpunct]
                exact ih _ _ _ (emit_idents_ok (punctTok_idents_ok ht) hst) h
            · split at h
              · -- identifier
                rename_i hident
                split at h
                rename_i t j hid
                have ht : (identTok s i c).1 = t := by rw [hid]
                exact ih _ _ _
                  (emit_idents_ok (ht ▸ identTok_idents_ok s i c hident) hst) h
              · split at h
                · -- number
                  split at h
                  · cases h
                  · split at h
                    · cases h
                    · rename_i t hnum
                      exact ih _ _ _
                        (emit_idents_ok (mkNumberToken_idents_ok hnum) hst) h
                · -- string literal or syntax error
                  split at h
                  · split at h
                    · cases h
                    · cases h
                    · split at h
                      · cases h
                      · rename_i t hlit
                        exact ih _ _ _
                          (emit_idents_ok (mkStrLitToken_idents_ok hlit) hst) h
                  · cases h

theorem punctFanOut_append (sp : Spacing) (pre : List Char) (c : Char) :
    punctFanOut sp (pre ++ [c]) =
      pre.map (fun d => SinkCall.appendPunct d .joint) ++ [SinkCall.appendPunct c sp] := by
  induction pre with
  | nil => rfl
  | cons a l ih =>
    cases l with
    | nil => rfl
    | cons b m =>
      rw [show punctFanOut sp ((a :: b :: m) ++ [c])
            = .appendPunct a .joint :: punctFanOut sp ((b :: m) ++ [c]) from rfl]
      rw [ih]
      simp

/-! ## The claims -/

/-- C1: the claim states that the micro-lexer terminates on every input,
in particular that lexing the two-character number `10` completes in
finitely many steps.  The code refutes it: the scan loop of
`parse_number` (`pymeta.py:128-142`) executes `continue` without ever
advancing `index` when it sees a digit-class character, so lexing `"10"`
runs forever — the model returns fuel-exhaustion for every fuel. -/
theorem c1_lexer_nontermination : ∀ fuel, lexTokens "10" fuel = none := by
  intro fuel
  match fuel with
  | 0 => rfl
  | f + 1 =>
    have hd : ∀ g fd, numLoop "10".data g 1 fd = none :=
      numLoop_stuck "10".data 1 '0' (by decide) (by decide)
    simp +decide [lexTokens, parseGo, hd]

/-- C2: of the four numeric edge cases the claim lists, only `1.field`
behaves as specified (IntegerLiteral 1, Punctuation `.`, Identifier
`field`).  Lexing `1..10`, `1.5f64` and `0x_FF_u8` instead diverges in
`parse_number`'s scan loop (which never advances over digit-class
characters), for every fuel. -/
theorem c2_numeric_edge_cases :
    (∀ fuel, lexTokens "1..10" fuel = none) ∧
    lexTokens "1.field" 30
      = some (.ok [.intLit 1 none, .punct "." .alone, .ident "field"]) ∧
    (∀ fuel, lexTokens "1.5f64" fuel = none) ∧
    (∀ fuel, lexTokens "0x_FF_u8" fuel = none) := by
  refine ⟨?_, rfl, ?_, ?_⟩
  · intro fuel
    match fuel with
    | 0 => rfl
    | 1 => rfl
    | 2 => rfl
    | 3 => rfl
    | f + 4 =>
      have hd : ∀ g fd, numLoop "1..10".data g 4 fd = none :=
        numLoop_stuck "1..10".data 4 '0' (by decide) (by decide)
      have e1 : mkNumberToken (slice ['1', '.', '.', '1', '0'] 0 1)
          = Except.ok (.intLit 1 none) := rfl
      have e2 : punctTok "1..10".data 1 '.' = (Except.ok (.punct ".." .alone), 3) := rfl
      simp +decide [lexTokens, parseGo, numLoop, hd, e1, e2]
  · intro fuel
    match fuel with
    | 0 => rfl
    | 1 => rfl
    | 2 => rfl
    | 3 => rfl
    | f + 4 =>
      have hd : ∀ g fd, numLoop "1.5f64".data g 3 fd = none :=
        numLoop_stuck "1.5f64".data 3 'f' (by decide) (by decide)
      have e1 : mkNumberToken (slice ['1', '.', '5', 'f', '6', '4'] 0 1)
          = Except.ok (.intLit 1 none) := rfl
      have e2 : punctTok "1.5f64".data 1 '.' = (Except.ok (.punct "." .alone), 2) := rfl
      simp +decide [lexTokens, parseGo, numLoop, hd, e1, e2]
  · intro fuel
    match fuel with
    | 0 => rfl
    | f + 1 =>
      have hd : ∀ g fd, numLoop "0x_FF_u8".data g 1 fd = none :=
        numLoop_stuck "0x_FF_u8".data 1 'x' (by decide) (by decide)
      simp +decide [lexTokens, parseGo, hd]

/-- C3: the claim's first half holds — lexing `'a` yields one `Punct`
`'` with `Joint` spacing followed by the identifier `a`.  Its second
half fails on the code: `parse_punct` runs before `parse_str_literal` in
the scan order and the apostrophe is in the punctuation alphabet, so
`'x'` lexes as `Punct`/`Ident`/`Punct`, never as a Char `StrLiteral`
(the char-literal path of `parse_str_literal` is unreachable from
`parse`). -/
theorem c3_lifetime_char_disambiguation :
    lexTokens "'a" 10 = some (.ok [.punct "'" .joint, .ident "a"]) ∧
    lexTokens "'x'" 10
      = some (.ok [.punct "'" .joint, .ident "x", .punct "'" .alone]) :=
  ⟨rfl, rfl⟩

/-- C4: the round-trip claim fails on the code.  Lexing the fragment
`"a"` yields one Str literal with content `a`; rendering it uses
`repr(self.value)` (marked `TODO: rust format` in the source), which
produces `'a'`; re-lexing `'a'` yields `Punct`/`Ident`/`Punct` — a
structurally different token list. -/
theorem c4_roundtrip_failure :
    lexTokens "\"a\"" 10 = some (.ok [.strLit "a" .str]) ∧
    renderTokenList [.strLit "a" .str] = "'a'" ∧
    lexTokens "'a'" 10
      = some (.ok [.punct "'" .joint, .ident "a", .punct "'" .alone]) ∧
    [Token.strLit "a" .str]
      ≠ [Token.punct "'" .joint, Token.ident "a", Token.punct "'" .alone] := by
  refine ⟨rfl, rfl, rfl, ?_⟩
  intro h
  cases h

/-- C5 (counterexample): the claim says lexing `)` with an empty group
stack fails with the delimiter-mismatch condition; in the code
`pop_group` does `_group_stack.pop(-1)` first, which raises `IndexError`
on the empty stack before any mismatch check is reached. -/
theorem c5_empty_stack_counterexample :
    lexTokens ")" 5 = some (.error .indexError) ∧
    resultIsDelimiterMismatch (lexTokens ")" 5) = false :=
  ⟨rfl, rfl⟩

/-- C5 (amended): with a non-empty group stack, `pop_group` raises the
delimiter-mismatch condition exactly when the closing delimiter does not
correspond to the innermost open group's delimiter; with an empty group
stack, lexing `)` fails with a stack-underflow `IndexError` instead. -/
theorem c5_closing_delimiter_mismatch :
    (∀ (res : List Token) (top : GroupFrame) (rest : List GroupFrame)
       (c : Char) (d : String), closingToDelim c = some d →
      (popGroup c ⟨res, top :: rest⟩
          = .error (.delimiterMismatch top.delimiter d) ↔ top.delimiter ≠ d)) ∧
    (∀ fuel, lexTokens ")" (fuel + 1) = some (.error .indexError)) := by
  constructor
  · intro res top rest c d hcd
    unfold popGroup
    rw [hcd]
    by_cases hne : top.delimiter = d
    · simp [hne]
    · simp [hne]
  · intro fuel
    rfl

/-- C5 (witness): the mismatch direction at a concrete popped group and
the `IndexError` at concrete fuel. -/
theorem c5_closing_delimiter_mismatch_witness :
    popGroup ']' ⟨[], [⟨"()", []⟩]⟩ = .error (.delimiterMismatch "()" "[]") ∧
    lexTokens ")" 3 = some (.error .indexError) :=
  ⟨(c5_closing_delimiter_mismatch.1 [] ⟨"()", []⟩ [] ']' "[]" rfl).mpr (by decide),
   c5_closing_delimiter_mismatch.2 2⟩

/-- C6: string escape fidelity: lexing the six-character fragment
`"a\"b"` yields one Str literal with decoded content `a"b`, and lexing
the seven-character fragment `"a\\"b"` yields one Str literal whose
content keeps the two-character sequence backslash-quote instead of
closing at the escaped quote. -/
theorem c6_string_escape_fidelity :
    lexTokens "\"a\\\"b\"" 20 = some (.ok [.strLit "a\"b" .str]) ∧
    lexTokens "\"a\\\\\"b\"" 20 = some (.ok [.strLit "a\\\"b" .str]) :=
  ⟨rfl, rfl⟩

/-- C7: the Coercion Engine dispatch of `process_one`: an already-built
token is appended unchanged; a plain int/float is wrapped as a suffixless
Integer/Float literal; a byte-sequence as a `Bytes`-sub-kind
BytesLiteral; a tuple/list as a `()`/`[]` Group over the recursively
coerced contents; a string goes to the lexer, and a template's parts go
to the lexer (text) or back into the dispatcher (interpolations); any
other value raises the type-mismatch condition naming it and its type. -/
theorem c7_coercion_dispatch (fuel : Nat) :
    (∀ (t : Token) (st : LexState),
      processOne (fuel + 1) (.tok t) st = some (.ok (emit t st))) ∧
    (∀ (n : Int) (st : LexState),
      processOne (fuel + 1) (.intVal n) st = some (.ok (emit (.intLit n none) st))) ∧
    (∀ (x : PyFloat) (st : LexState),
      processOne (fuel + 1) (.floatVal x) st
        = some (.ok (emit (.floatLit x none) st))) ∧
    (∀ (b : List Nat) (st : LexState),
      processOne (fuel + 1) (.bytesVal b) st
        = some (.ok (emit (.bytesLit b .bytes) st))) ∧
    (∀ (its : List Item) (st : LexState),
      processOne (fuel + 1) (.tupleVal its) st =
        match coerceItems fuel its with
        | none => none
        | some (.error e) => some (.error e)
        | some (.ok toks) => some (.ok (emit (.group "()" toks) st))) ∧
    (∀ (its : List Item) (st : LexState),
      processOne (fuel + 1) (.listVal its) st =
        match coerceItems fuel its with
        | none => none
        | some (.error e) => some (.error e)
        | some (.ok toks) => some (.ok (emit (.group "[]" toks) st))) ∧
    (∀ (s : String) (st : LexState),
      processOne (fuel + 1) (.strVal s) st = parseGo s.data fuel 0 st) ∧
    (∀ (parts : List TPart) (st : LexState),
      processOne (fuel + 1) (.template parts) st = processParts fuel parts st) ∧
    (∀ (r ty : String) (st : LexState),
      processOne (fuel + 1) (.other r ty) st
        = some (.error (.typeMismatch r ty))) := by
  refine ⟨fun t st => rfl, fun n st => rfl, fun x st => rfl, fun b st => rfl,
    ?_, ?_, fun s st => rfl, fun parts st => rfl, fun r ty st => rfl⟩
  · intro its st
    cases h : coerceItems fuel its with
    | none => simp [processOne, h]
    | some r =>
      cases r with
      | error e => simp [processOne, h]
      | ok toks => simp +decide [processOne, h, mkGroup, groupDelimiters]
  · intro its st
    cases h : coerceItems fuel its with
    | none => simp [processOne, h]
    | some r =>
      cases r with
      | error e => simp [processOne, h]
      | ok toks => simp +decide [processOne, h, mkGroup, groupDelimiters]

/-- C8: emitting a Punctuation token with characters `pre ++ [c]` makes
one `append_punct` sink call per character, in character order, the
leading ones with `Joint` spacing and the last with the token's stored
spacing; consequently lexing `->` yields one two-character Punctuation
run re-emitted as `-` Joint then `>` Alone, while lexing `- >` yields
two separate Alone Punctuation tokens. -/
theorem c8_punct_fanout :
    (∀ (pre : List Char) (c : Char) (sp : Spacing),
      tokenSinkCalls (.punct (String.mk (pre ++ [c])) sp) =
        .ok (pre.map (fun d => SinkCall.appendPunct d .joint)
          ++ [SinkCall.appendPunct c sp])) ∧
    lexTokens "->" 10 = some (.ok [.punct "->" .alone]) ∧
    tokenSinkCalls (.punct "->" .alone)
      = .ok [.appendPunct '-' .joint, .appendPunct '>' .alone] ∧
    lexTokens "- >" 10 = some (.ok [.punct "-" .alone, .punct ">" .alone]) := by
  refine ⟨?_, rfl, rfl, rfl⟩
  intro pre c sp
  have hne : ((String.mk (pre ++ [c])).data).isEmpty = false := by
    cases pre <;> simp [String.mk]
  simp [tokenSinkCalls, hne, punctFanOut_append]

/-- C9 (counterexample): the claim says every Identifier constructible
through the public interface satisfies the invariant (non-empty,
identifier-start head, identifier-continue tail); but `Ident.__init__`
performs no validation, so `Ident("")` constructs an Identifier holding
the empty string, which violates the invariant. -/
theorem c9_ident_ctor_counterexample :
    mkIdent "" = Token.ident "" ∧ tokenIdentsOk (mkIdent "") = false :=
  ⟨rfl, rfl⟩

/-- C9 (amended): Identifier tokens produced by the lexer do satisfy the
invariant — every `Ident` in the result of a normally returning lex (at
any group-nesting depth) holds a non-empty string whose head is an
identifier-start character and whose tail is identifier-continue
characters; the `Ident` constructor itself does not enforce this. -/
theorem c9_ident_invariant :
    ∀ (s : String) (fuel : Nat) (toks : List Token),
      lexTokens s fuel = some (.ok toks) → tokensIdentsOk toks = true := by
  intro s fuel toks h
  unfold lexTokens at h
  cases hp : parseGo s.data fuel 0 initState with
  | none => rw [hp] at h; cases h
  | some r =>
    rw [hp] at h
    cases r with
    | error e => cases h
    | ok st =>
      cases h
      have hok : stateIdentsOk st = true :=
        parseGo_preserves s.data fuel 0 initState st rfl hp
      unfold stateIdentsOk at hok
      exact (Bool.and_eq_true_iff.mp hok).1

/-- C9 (witness): the amended theorem applied to the concrete lex of
`a`. -/
theorem c9_ident_invariant_witness :
    lexTokens "a" 5 = some (.ok [.ident "a"]) ∧
    tokensIdentsOk [.ident "a"] = true :=
  ⟨rfl, c9_ident_invariant "a" 5 [.ident "a"] rfl⟩

/-- C10: with the process-wide context stack empty, the free composition
function `rust(...)` never returns normally — after coercing its
arguments it looks up `Tokens._CTX_STACK[-1]`, which raises `IndexError`
on the empty deque before anything is appended, so no token list is
modified (for argument lists whose coercion itself diverges or raises,
that failure propagates instead); with no arguments it raises exactly
`IndexError`. -/
theorem c10_rust_empty_context :
    (∀ (fuel : Nat) (args : List Item),
      resultIsOk (rustCall fuel [] args) = false) ∧
    (∀ fuel, rustCall (fuel + 2) [] [] = some (.error .indexError)) := by
  constructor
  · intro fuel args
    cases h : coerceItems fuel args with
    | none => simp [rustCall, h, resultIsOk]
    | some r =>
      cases r with
      | error e => simp [rustCall, h, resultIsOk]
      | ok toks => simp [rustCall, h, resultIsOk]
  · intro fuel
    rfl

end Pymeta
